import Mathlib

/-!
# PollyReports — a shallow embedding of `PollyReports.py` in Lean 4

This file embeds the data model and the algorithms of `PollyReports.py`
(the banded report-layout engine) and settles the specification claims
about it.  The embedding follows the source:

* Python values flowing through element value resolution are modelled by
  `PyVal` (`None`, strings, integers); a row is an association list
  (`row[key]` is `Row.find`, raising `KeyError` when the key is absent).
* Exceptions are modelled with `Except PyErr`.
* `TextElement.getvalue` / `gettext` (source lines 154–184) are
  `TextEl.getvalue` / `TextEl.gettext`.
* `SumElement` (source lines 194–205) keeps a mutable accumulator
  `summary`; state is threaded explicitly.
* `TextRenderer.render` (source lines 87–113) is `TRend.render`,
  producing the list of canvas draw commands.
* `Band.generate` / `Band.getvalue` / `Band.ischanged`
  (source lines 373–420) work over layout bands `LBand` whose elements
  are duck-typed objects exposing `generate(row)`; such an element is
  modelled as a function from the row to a renderer (`LElement`).
* `Report.generate` / `Report.newpage` / `Report.addtopage`
  (source lines 456–620) are modelled as a state machine over `RState`;
  the canvas is modelled as the list of finalized pages of rendered
  items, and a trace of band-generation events is recorded for
  observability.
-/

set_option autoImplicit false

namespace PollyReports

/-- A Python value as used by element value resolution: `None`, a
string, or an integer. -/
inductive PyVal where
  | none
  | str (s : String)
  | int (n : Int)
  deriving DecidableEq, Repr

/-- A Python exception raised by the embedded code. -/
inductive PyErr where
  /-- `row[key]` with `key` absent from the row. -/
  | keyError
  /-- `str + non-str` concatenation. -/
  | typeError
  /-- `getattr` failure (unknown system variable, or no report wired). -/
  | attributeError
  /-- An unbound module-level name (`Element` in `SumElement.summarize`). -/
  | nameError (missing : String)
  deriving DecidableEq, Repr

/-- A row: an association list from keys to values; `row[k]` raises
`KeyError` when `k` is absent. -/
def Row := List (String × PyVal)

instance : DecidableEq Row := inferInstanceAs (DecidableEq (List (String × PyVal)))

/-- `row[k]` — keyed lookup, `KeyError` when absent. -/
def Row.find (row : Row) (k : String) : Except PyErr PyVal :=
  match row.lookup k with
  | some v => .ok v
  | Option.none => .error .keyError

/-- Python `str()` applied to a `PyVal` (the default `format` and the
default `text_conversion` of `TextElement`). -/
def pyStr : PyVal → String
  | .none => "None"
  | .str s => s
  | .int n => toString n

/-- The system variables an element can reach through its back-reference
to the `Report` (`getattr(self.report, self.sysvar)`, source line 183). -/
structure ReportVars where
  pagenumber : Int
  rownumber : Int

/-- `getattr(report, sysvar)` for the report attributes used as system
variables; an unknown attribute name raises `AttributeError`. -/
def ReportVars.getattr (rv : ReportVars) (name : String) : Except PyErr PyVal :=
  if name = "pagenumber" then .ok (.int rv.pagenumber)
  else if name = "rownumber" then .ok (.int rv.rownumber)
  else .error .attributeError

/-- `TextElement` (source lines 122–191): the configuration consulted by
value resolution.  `getvalueF` is the constructor's `getvalue` argument
(stored as `_getvalue`), `format` is `_format` (default `str`),
`report` is the back-reference installed by `Report.setreference`
(`None` while unwired). -/
structure TextEl where
  text : Option String := Option.none
  key : Option String := Option.none
  getvalueF : Option (Row → PyVal) := Option.none
  sysvar : Option String := Option.none
  format : PyVal → String := pyStr
  report : Option ReportVars := Option.none

/-- String concatenation of the literal-prefix text with the row-keyed
value (source line 179): `(text_conversion(text) if text is not None
else "") + (row[key] if row[key] is not None else "")`.  Python string
concatenation with a non-string right operand raises `TypeError`. -/
def concatTextKey (prefixText : String) (v : PyVal) : Except PyErr PyVal :=
  match v with
  | .none => .ok (.str (prefixText ++ ""))
  | .str s => .ok (.str (prefixText ++ s))
  | .int _ => .error .typeError

/-- `TextElement.getvalue` (source lines 175–184). -/
def TextEl.getvalue (e : TextEl) (row : Row) : Except PyErr PyVal :=
  match e.getvalueF with
  | some f => .ok (f row)
  | Option.none =>
    match e.key with
    | some k => do
        let v ← row.find k
        concatTextKey (match e.text with | some t => pyStr (.str t) | Option.none => "") v
    | Option.none =>
      match e.text with
      | some t => .ok (.str (pyStr (.str t)))
      | Option.none =>
        match e.sysvar with
        | some sv =>
          match e.report with
          | some rv => rv.getattr sv
          | Option.none => .error .attributeError
        | Option.none => .ok .none

/-- `TextElement.gettext` (source lines 154–158): resolve the value;
`None` becomes the empty string, otherwise the format function is
applied. -/
def TextEl.gettext (e : TextEl) (row : Row) : Except PyErr String := do
  let value ← e.getvalue row
  pure (if value = .none then "" else e.format value)

/-- The spec side of claim C3, written from the spec's words: value
resolution follows the priority computed-function > row-key > literal
text > system-variable > none; the first non-null configuration wins and
paths are never combined, except that the row-key path concatenates the
configured literal prefix text with the row-keyed value when both text
and key are configured. -/
def resolvePrioritySpec (e : TextEl) (row : Row) : Except PyErr PyVal :=
  match e.getvalueF, e.key, e.text, e.sysvar with
  | some f, _, _, _ => .ok (f row)
  | Option.none, some k, t, _ => do
      let v ← row.find k
      concatTextKey (t.getD "") v
  | Option.none, Option.none, some t, _ => .ok (.str t)
  | Option.none, Option.none, Option.none, some sv =>
      match e.report with
      | some rv => rv.getattr sv
      | Option.none => .error .attributeError
  | Option.none, Option.none, Option.none, Option.none => .ok .none

/-! ## `SumElement` (source lines 194–205) -/

/-- A `SumElement`: a `TextElement` together with the mutable
accumulator `summary` (initialized to `0` by `TextElement.__init__`,
source line 152). -/
structure SumEl where
  base : TextEl
  summary : Int := 0

/-- `SumElement.getvalue` (source lines 196–199): return the
accumulator and clear it (read-then-clear).  The mutation of
`self.summary` is threaded as the returned element. -/
def SumEl.getvalue (e : SumEl) : SumEl × Int :=
  ({ e with summary := 0 }, e.summary)

/-- `SumElement.summarize` (source lines 201–205) executes
`v = Element.getvalue(self, row)`.  The name `Element` is bound nowhere
in the module (the class is named `TextElement`; only the comment at
source lines 169–171 still refers to the old name `Element`), so the
call raises `NameError` before anything is added to the accumulator. -/
def SumEl.summarize (_e : SumEl) (_row : Row) : Except PyErr (SumEl × Unit) :=
  .error (.nameError "Element")

/-! ## `TextRenderer.render` (source lines 71–113) -/

/-- A `TextRenderer` after `__init__`: the computed text lines, the
per-line height (`font[1] + leading`, passed as `height` by
`TextElement.generate`), the alignment string, the font size (used for
the baseline), and the element position. -/
structure TRend where
  fontSize : Int
  align : String
  lineheight : Int
  lines : List String
  x : Int
  y : Int

/-- `TextRenderer.height` (source line 85): line height times the
number of computed lines — independent of the alignment string. -/
def TRend.height (t : TRend) : Int :=
  t.lineheight * t.lines.length

/-- A string-drawing command issued to the canvas. -/
inductive DrawCmd where
  | drawRightString (x y : Int) (text : String)
  | drawCentredString (x y : Int) (text : String)
  | drawString (x y : Int) (text : String)
  | drawAlignedString (x y : Int) (text : String)
  deriving DecidableEq, Repr

/-- Python `w.startswith(a)`: the characters of `a` are a prefix of the
characters of `w`. -/
def startswith (w a : String) : Bool :=
  a.data.isPrefixOf w.data

/-- One loop iteration of `TextRenderer.render` (source lines 92–113):
the command drawn for a single line at a given running offset, chosen by
the `startswith` cascade; an alignment matching none of the branches
draws nothing. -/
def TRend.renderLine (t : TRend) (leftmargin offset : Int) (text : String) :
    List DrawCmd :=
  if startswith "right" t.align then
    [.drawRightString (t.x + leftmargin) (-1 * (t.y + offset + t.fontSize)) text]
  else if startswith "center" t.align ∨ startswith "centre" t.align then
    [.drawCentredString (t.x + leftmargin) (-1 * (t.y + offset + t.fontSize)) text]
  else if startswith "left" t.align then
    [.drawString (t.x + leftmargin) (-1 * (t.y + offset + t.fontSize)) text]
  else if startswith "align" t.align then
    [.drawAlignedString (t.x + leftmargin) (-1 * (t.y + offset + t.fontSize)) text]
  else []

/-- `TextRenderer.render` (source lines 87–113): draw each computed line
in turn, advancing the running offset by the line height after every
line whether or not anything was drawn. -/
def TRend.render (t : TRend) (leftmargin offset : Int) : List DrawCmd :=
  (t.lines.foldl
    (fun (acc : List DrawCmd × Int) text =>
      (acc.1 ++ t.renderLine leftmargin acc.2 text, acc.2 + t.lineheight))
    ([], offset)).1

/-! ## Layout: bands and renderers (source lines 349–420)

`Band.elements` is duck-typed in the source: any object exposing
`generate(row)` that returns a renderer carrying `pos`, `height` and
`applyoffset` will do (`TextElement`, `ShapeElement`, `Image`, `Rule`).
The layout model therefore treats an element as a function from the row
to a renderer. -/

/-- A renderer as consumed by `Band.generate`: position, computed
height, and the payload it would draw (for a `TextRenderer` the text,
for an image its path, …) kept so that what was emitted to a page can be
observed. -/
structure LRend where
  x : Int
  y : Int
  height : Int
  tag : String := ""
  deriving DecidableEq, Repr

/-- `applyoffset` (source lines 67–69): shift the renderer's vertical
position down by `offset`. -/
def LRend.applyoffset (r : LRend) (offset : Int) : LRend :=
  { r with y := r.y + offset }

/-- A band element: any object exposing `generate(row) -> renderer`. -/
structure LElement where
  gen : Row → LRend

/-- A background shape of a band (a `ShapeElement` listed in
`Band.backgrounds`): its anchor position and bottom margin; its height
is computed by `Band.generate` (source line 388). -/
structure LBackground where
  x : Int
  y : Int
  bottomMargin : Int

/-- `Band` (source lines 349–366), restricted to the layout- and
group-relevant configuration: elements, nested child bands, sibling
additional bands, the group key / group-key function (`key` and
`_getvalue`, used only by group headers and footers), the forced
page-break flags, and background shapes. -/
inductive LBand where
  | mk (elements : List LElement)
       (childbands : List LBand)
       (additionalbands : List LBand)
       (key : Option String)
       (getvalueF : Option (Row → PyVal))
       (newpagebefore : Bool)
       (newpageafter : Bool)
       (backgrounds : List LBackground)

def LBand.elements : LBand → List LElement
  | .mk els _ _ _ _ _ _ _ => els

def LBand.childbands : LBand → List LBand
  | .mk _ cbs _ _ _ _ _ _ => cbs

def LBand.additionalbands : LBand → List LBand
  | .mk _ _ abs _ _ _ _ _ => abs

def LBand.key : LBand → Option String
  | .mk _ _ _ k _ _ _ _ => k

def LBand.getvalueF : LBand → Option (Row → PyVal)
  | .mk _ _ _ _ f _ _ _ => f

def LBand.newpagebefore : LBand → Bool
  | .mk _ _ _ _ _ npb _ _ => npb

def LBand.newpageafter : LBand → Bool
  | .mk _ _ _ _ _ _ npa _ => npa

def LBand.backgrounds : LBand → List LBackground
  | .mk _ _ _ _ _ _ _ bgs => bgs

@[simp] theorem LBand.elements_mk (els : List LElement) (cbs abs : List LBand)
    (k : Option String) (f : Option (Row → PyVal)) (npb npa : Bool)
    (bgs : List LBackground) :
    (LBand.mk els cbs abs k f npb npa bgs).elements = els := rfl

@[simp] theorem LBand.childbands_mk (els : List LElement) (cbs abs : List LBand)
    (k : Option String) (f : Option (Row → PyVal)) (npb npa : Bool)
    (bgs : List LBackground) :
    (LBand.mk els cbs abs k f npb npa bgs).childbands = cbs := rfl

@[simp] theorem LBand.additionalbands_mk (els : List LElement) (cbs abs : List LBand)
    (k : Option String) (f : Option (Row → PyVal)) (npb npa : Bool)
    (bgs : List LBackground) :
    (LBand.mk els cbs abs k f npb npa bgs).additionalbands = abs := rfl

@[simp] theorem LBand.newpagebefore_mk (els : List LElement) (cbs abs : List LBand)
    (k : Option String) (f : Option (Row → PyVal)) (npb npa : Bool)
    (bgs : List LBackground) :
    (LBand.mk els cbs abs k f npb npa bgs).newpagebefore = npb := rfl

@[simp] theorem LBand.newpageafter_mk (els : List LElement) (cbs abs : List LBand)
    (k : Option String) (f : Option (Row → PyVal)) (npb npa : Bool)
    (bgs : List LBackground) :
    (LBand.mk els cbs abs k f npb npa bgs).newpageafter = npa := rfl

@[simp] theorem LBand.backgrounds_mk (els : List LElement) (cbs abs : List LBand)
    (k : Option String) (f : Option (Row → PyVal)) (npb npa : Bool)
    (bgs : List LBackground) :
    (LBand.mk els cbs abs k f npb npa bgs).backgrounds = bgs := rfl

/-- The element pass of `Band.generate` (source lines 374–378):
`elementlist` starts as `[0]`; each element's renderer is appended and
`elementlist[0]` becomes the running maximum of
`renderer.height + renderer.pos[1]`.  The pair models
(`elementlist[0]`, `elementlist[1:]`). -/
def genElements (els : List LElement) (row : Row) : Int × List LRend :=
  els.foldl
    (fun (acc : Int × List LRend) e =>
      let renderer := e.gen row
      (max acc.1 (renderer.height + renderer.y), acc.2 ++ [renderer]))
    (0, [])

mutual

/-- `Band.generate` (source lines 373–392): element pass, then child
bands (each child's renderers shifted down by the height accumulated so
far, the child's height added to the total), then background shapes
sized to the final height and inserted before all foreground
renderers. -/
def LBand.generate : LBand → Row → Int × List LRend
  | .mk els cbs _ _ _ _ _ bgs, row =>
    let afterEls := genElements els row
    let afterCh := LBand.genChildren cbs row afterEls
    let bgRenderers := bgs.map (fun bg =>
      { x := bg.x, y := bg.y, height := afterCh.1 - bg.y - bg.bottomMargin,
        tag := "background" : LRend })
    (afterCh.1, bgRenderers ++ afterCh.2)

/-- The child-band pass of `Band.generate` (source lines 379–384):
recursively generate each child, shift its renderers down by
`elementlist[0]` as it stands, append them, then add the child's height
to `elementlist[0]`. -/
def LBand.genChildren : List LBand → Row → Int × List LRend → Int × List LRend
  | [], _, acc => acc
  | cb :: rest, row, acc =>
    let childlist := LBand.generate cb row
    LBand.genChildren rest row
      (acc.1 + childlist.1, acc.2 ++ childlist.2.map (fun r => r.applyoffset acc.1))

end

/-- `Band.getvalue` (source lines 408–413), used only for group headers
and footers: the group-key function if configured, else keyed row
lookup, else the constant `0`. -/
def LBand.getvalue (b : LBand) (row : Row) : Except PyErr PyVal :=
  match b.getvalueF with
  | some f => .ok (f row)
  | Option.none =>
    match b.key with
    | some k => row.find k
    | Option.none => .ok (.int 0)

/-- `Band.ischanged` (source lines 415–420).  `previousvalue` is the
band's mutable previous-group-key slot, threaded explicitly: the result
pairs the newly stored value with the report (`1`/`None` in the source,
modelled as `Bool`).  A change is reported only when the stored previous
value is not `None` and differs from the newly computed one. -/
def LBand.ischanged (b : LBand) (previousvalue : PyVal) (row : Row) :
    Except PyErr (PyVal × Bool) := do
  let pv := previousvalue
  let v ← b.getvalue row
  pure (if pv ≠ PyVal.none ∧ pv ≠ v then (v, true) else (v, false))

/-! ## The report pagination state machine (source lines 423–620)

The canvas is modelled as the list of finalized pages, each page being
the list of rendered items (renderer plus the vertical offset it was
rendered at).  `canvas.translate` only moves the drawing origin and is
absorbed into the offsets; `leftmargin` affects only horizontal draw
coordinates (modelled in `TRend.render`) and is omitted here.
`Band.summarize` (source lines 397–404) only feeds `SumElement`
accumulators and never influences layout, so it does not appear in the
layout state machine. -/

instance : Repr Row := inferInstanceAs (Repr (List (String × PyVal)))

/-- An item rendered onto the canvas: renderer and vertical offset. -/
structure RItem where
  rend : LRend
  offset : Int
  deriving DecidableEq, Repr

/-- The canvas: finalized pages and the page being drawn. -/
structure MCanvas where
  pages : List (List RItem)
  current : List RItem
  deriving DecidableEq, Repr

/-- `canvas.showPage()`: finalize the current page. -/
def MCanvas.showPage (c : MCanvas) : MCanvas :=
  { pages := c.pages ++ [c.current], current := [] }

/-- A band-generation event, recorded for observability: which band
role generated, at which group level, and from which row. -/
inductive REvent where
  | title
  | pageheaderE
  | reportheaderE
  | pagefooterE
  | firstHeader (i : Nat) (row : Row)
  | gfooter (i : Nat) (row : Row)
  | gheader (i : Nat) (row : Row)
  | detailE (row : Row)
  | rfooter (row : Row)
  | aband (row : Row)
  deriving DecidableEq, Repr

/-- The report configuration (`Report.__init__`, source lines 425–454,
plus the page height obtained from the canvas at source line 504). -/
structure RCfg where
  titleband : Option LBand := Option.none
  detailband : Option LBand := Option.none
  pageheader : Option LBand := Option.none
  pagefooter : Option LBand := Option.none
  reportheader : Option LBand := Option.none
  reportfooter : Option LBand := Option.none
  groupheaders : List LBand := []
  groupfooters : List LBand := []
  rowfunc : Option (Row → Option Row) := Option.none
  topmargin : Int := 36
  bottommargin : Int := 36
  pagesizeH : Int

/-- The mutable report state during `Report.generate`: the canvas, the
page and row counters, the pagination cursor (`current_offset`,
`endofpage`), the `previousvalue` slots of the group-footer and
group-header bands, the detail-height statistics, and the recorded
event trace. -/
structure RState where
  canvas : MCanvas
  pagenumber : Nat
  rownumber : Nat
  current_offset : Int
  endofpage : Int
  gfPrev : List PyVal
  ghPrev : List PyVal
  sumDetailHt : Int
  avgDetailHt : Int
  maxDetailHt : Int
  trace : List REvent
  deriving Repr

/-- `Report.addtopage` (source lines 478–481): render every renderer of
the element list at the current offset; the caller adds the returned
height (`elementlist[0]`) to the cursor. -/
def Report.addtopage (st : RState) (elementlist : Int × List LRend) : RState × Int :=
  ({ st with canvas := { st.canvas with
      current := st.canvas.current ++ elementlist.2.map (fun r => ⟨r, st.current_offset⟩) } },
   elementlist.1)

/-- One per-page band emission inside `Report.newpage` (the title band,
page header and report header, source lines 463–471): when the band is
configured (and, for the title and report header, only on the first
page) add it to the page and advance the cursor. -/
def Report.emitPageBand (st : RState) (ob : Option LBand) (firstPageOnly : Bool)
    (ev : REvent) (row : Row) : RState :=
  match ob with
  | some b =>
    if firstPageOnly = false ∨ st.pagenumber = 1 then
      let (st2, h) := Report.addtopage { st with trace := st.trace ++ [ev] }
        (b.generate row)
      { st2 with current_offset := st2.current_offset + h }
    else st
  | Option.none => st

/-- The page-footer emission inside `Report.newpage` (source lines
472–476): the footer is rendered anchored to the bottom margin and
`endofpage` is raised by its height. -/
def Report.emitPageFooter (cfg : RCfg) (st : RState) (row : Row) : RState :=
  match cfg.pagefooter with
  | some pf =>
    let elementlist := pf.generate row
    let st := { st with
      endofpage := cfg.pagesizeH - cfg.bottommargin - elementlist.1,
      trace := st.trace ++ [REvent.pagefooterE] }
    { st with canvas := { st.canvas with
        current := st.canvas.current ++
          elementlist.2.map (fun r => ({ rend := r, offset := st.endofpage } : RItem)) } }
  | Option.none => st

/-- The opening of `Report.newpage` (source lines 457–462): flush the
previous page if one was begun (`canvas.showPage()` only when
`pagenumber` is nonzero), bump the page counter, and reset `endofpage`
and the cursor to the top margin. -/
def Report.startPage (cfg : RCfg) (st : RState) : RState :=
  { st with
    canvas := if st.pagenumber ≠ 0 then st.canvas.showPage else st.canvas,
    pagenumber := st.pagenumber + 1,
    endofpage := cfg.pagesizeH - cfg.bottommargin,
    current_offset := cfg.topmargin }

/-- `Report.newpage` (source lines 456–477): finalize the previous page
(if any), reset `endofpage` and the cursor to the top margin, then emit
the title band (first page only), the page header, the report header
(first page only), and finally the page footer anchored to the bottom
margin. -/
def Report.newpage (cfg : RCfg) (st : RState) (row : Row) : RState :=
  Report.emitPageFooter cfg
    (Report.emitPageBand
      (Report.emitPageBand
        (Report.emitPageBand (Report.startPage cfg st) cfg.titleband true .title row)
        cfg.pageheader false .pageheaderE row)
      cfg.reportheader true .reportheaderE row)
    row

/-- The `self.current_offset += self.addtopage(canvas, elementlist)`
idiom used at every emission site: add the element list to the page and
advance the cursor by its height. -/
def Report.addAndAdvance (st : RState) (elementlist : Int × List LRend) : RState :=
  { (Report.addtopage st elementlist).1 with
    current_offset := st.current_offset + elementlist.1 }

/-- The band-placement step shared by every emission site of
`Report.generate`: generate the band for `genrow` (recording the
generation event), start a new page if the band demands `newpagebefore`
(where the call site consults it) or if the projected placement
`current_offset + height + extra` reaches `endofpage` (`extra` is
`_avg_detail_ht` at the group-header site and `0` elsewhere), then add
the element list to the page and advance the cursor.  `nprow` is the
row handed to `newpage` (the previous row at the group-footer
site). -/
def Report.placeBand (cfg : RCfg) (st : RState) (b : LBand) (genrow : Row)
    (useNPB : Bool) (extra : Int) (nprow : Row) (ev : REvent) : RState :=
  if (useNPB ∧ b.newpagebefore) ∨
      st.current_offset + (b.generate genrow).1 + extra ≥ st.endofpage
  then Report.addAndAdvance
    (Report.newpage cfg { st with trace := st.trace ++ [ev] } nprow) (b.generate genrow)
  else Report.addAndAdvance { st with trace := st.trace ++ [ev] } (b.generate genrow)

/-- The additional-band loops (source lines 528–532, 545–549, 567–571,
584–588, 601–605): each sibling band is generated for `row` and placed
with the plain overflow check. -/
def Report.placeAdditionals (cfg : RCfg) (st : RState) (bands : List LBand)
    (row : Row) : RState :=
  bands.foldl (fun st ab => Report.placeBand cfg st ab row false 0 row (.aband row)) st

/-- The first-row block (source lines 521–532): emit every group-header
band (and its additional bands) unconditionally, with the plain
overflow check (`newpagebefore` is not consulted here). -/
def Report.firstrowHeaders (cfg : RCfg) (st : RState) (row : Row) : RState :=
  (cfg.groupheaders.enum).foldl
    (fun st p =>
      let st := Report.placeBand cfg st p.2 row false 0 row (.firstHeader p.1 row)
      Report.placeAdditionals cfg st p.2.additionalbands row)
    st

/-- The change-detection scans (source lines 535–537 and 556–559):
call `ischanged` on every band of the list in order, threading each
band's `previousvalue` slot; returns the updated slots and the per-band
change reports. -/
def Report.scanBands : List LBand → List PyVal → Row →
    Except PyErr (List PyVal × List Bool)
  | [], _, _ => .ok ([], [])
  | b :: rest, prevs, row => do
    let (v, ch) ← b.ischanged (prevs.headD PyVal.none) row
    let (vs, chs) ← Report.scanBands rest prevs.tail row
    return (v :: vs, ch :: chs)

/-- `lastchanged` (source lines 534–537): the last index reporting a
change, if any. -/
def lastChangedIdx (chs : List Bool) : Option Nat :=
  chs.enum.foldl (fun acc p => if p.2 then some p.1 else acc) Option.none

/-- `firstchanged` (source lines 555–559): the first index reporting a
change, if any. -/
def firstChangedIdx (chs : List Bool) : Option Nat :=
  chs.enum.foldl (fun acc p => if p.2 ∧ acc.isNone then some p.1 else acc) Option.none

/-- The `newpageafter` handling after a group footer or header
(source lines 550–551 and 572–573): push the cursor past the page
end. -/
def Report.afterBreak (cfg : RCfg) (band : LBand) (st : RState) : RState :=
  if band.newpageafter then { st with current_offset := cfg.pagesizeH } else st

/-- One iteration of the group-footer flush loop (source lines
539–551): emit footer level `i` generated from the **previous** row
(`newpage`, when triggered, also receives the previous row), then its
additional bands generated from the current row, then the
`newpageafter` handling. -/
def Report.footerStep (cfg : RCfg) (prevrow row : Row) (st : RState) (i : Nat) : RState :=
  match cfg.groupfooters.get? i with
  | Option.none => st
  | some band =>
    Report.afterBreak cfg band
      (Report.placeAdditionals cfg
        (Report.placeBand cfg st band prevrow true 0 prevrow (.gfooter i prevrow))
        band.additionalbands row)

/-- The group-footer flush (source lines 538–551): when any level
changed, run the footer step for levels `0 .. lastchanged`. -/
def Report.flushFooters (cfg : RCfg) (st : RState) (lastchanged : Option Nat)
    (prevrow row : Row) : RState :=
  match lastchanged with
  | Option.none => st
  | some L => (List.range (L + 1)).foldl (Report.footerStep cfg prevrow row) st

/-- One iteration of the group-header emission loop (source lines
561–573): emit header level `i` generated from the **current** row,
the overflow check padded by `_avg_detail_ht`, then its additional
bands, then the `newpageafter` handling. -/
def Report.headerStep (cfg : RCfg) (row : Row) (st : RState) (i : Nat) : RState :=
  match cfg.groupheaders.get? i with
  | Option.none => st
  | some band =>
    Report.afterBreak cfg band
      (Report.placeAdditionals cfg
        (Report.placeBand cfg st band row true st.avgDetailHt row (.gheader i row))
        band.additionalbands row)

/-- The group-header emission (source lines 555–573): when any level
changed, run the header step for levels `firstchanged .. last`. -/
def Report.emitHeaders (cfg : RCfg) (st : RState) (firstchanged : Option Nat)
    (row : Row) : RState :=
  match firstchanged with
  | Option.none => st
  | some F =>
    (List.range' F (cfg.groupheaders.length - F)).foldl (Report.headerStep cfg row) st

/-- The detail-height statistics update (source lines 577–580): track
the maximum and cumulative detail heights and their blended average
(`//` is Python floor division, `Int.fdiv`; `rownumber ≥ 1` here). -/
def Report.updateDetailStats (cfg : RCfg) (st : RState) (row : Row) : RState :=
  match cfg.detailband with
  | Option.none => st
  | some db =>
    { st with
      maxDetailHt := max (db.generate row).1 st.maxDetailHt,
      sumDetailHt := st.sumDetailHt + (db.generate row).1,
      avgDetailHt := ((st.sumDetailHt + (db.generate row).1).fdiv (st.rownumber : Int)
        + max (db.generate row).1 st.maxDetailHt).fdiv 2 }

/-- The detail-band block (source lines 575–588): update the
detail-height statistics, place the detail band with the plain
overflow check, then its additional bands. -/
def Report.placeDetail (cfg : RCfg) (st : RState) (row : Row) : RState :=
  match cfg.detailband with
  | Option.none => st
  | some db =>
    Report.placeAdditionals cfg
      (Report.placeBand cfg (Report.updateDetailStats cfg st row) db row false 0 row
        (.detailE row))
      db.additionalbands row

/-- Store the updated `previousvalue` slots of the group footers after
their change scan. -/
def RState.setGfPrev (st : RState) (g : List PyVal) : RState :=
  { st with gfPrev := g }

/-- Store the updated `previousvalue` slots of the group headers after
their change scan. -/
def RState.setGhPrev (st : RState) (g : List PyVal) : RState :=
  { st with ghPrev := g }

/-- The per-row pagination work once a row survives the `rowfunc` hook
(source lines 519–593): scan the group footers for changes and flush
the changed levels from the **previous** row, scan the group headers
and emit the changed levels from the **current** row, then place the
detail band.  The header change scan reads only `cfg.groupheaders`,
the stored `ghPrev` slots (untouched by the flush) and the row, so it
is hoisted next to the footer scan; a scan failure aborts generation
and discards the state either way.  `summarize` calls (source lines
552–553 and 590–591) feed only `SumElement` accumulators and are
layout no-ops here.  When the footer flush runs, a stored non-null
previous group key guarantees a previous row exists, so the `getD`
default is unreachable. -/
def Report.rowStepProcessed (cfg : RCfg) (st : RState) (prevrow : Option Row)
    (row : Row) : Except PyErr (RState × Option Row × Bool) :=
  (Report.scanBands cfg.groupfooters st.gfPrev row).bind (fun gfr =>
    (Report.scanBands cfg.groupheaders st.ghPrev row).bind (fun ghr =>
      .ok (Report.placeDetail cfg
            (Report.emitHeaders cfg
              (RState.setGhPrev
                (Report.flushFooters cfg (RState.setGfPrev st gfr.1)
                  (lastChangedIdx gfr.2) (prevrow.getD []) row)
                ghr.1)
              (firstChangedIdx ghr.2) row)
            row,
           some row, false)))

/-- `self.rownumber += 1` (source line 519). -/
def RState.bumpRow (st : RState) : RState :=
  { st with rownumber := st.rownumber + 1 }

/-- One iteration of the row loop of `Report.generate` (source lines
511–593), threading `(state, prevrow, firstrow)`.  The `rowfunc` hook
may replace the row or (returning the null sentinel) skip it without
advancing the row counter; a surviving row advances the row counter,
triggers the first-row group-header emission on the first row only,
and then runs the per-row pagination work. -/
def Report.rowStep (cfg : RCfg) (acc : RState × Option Row × Bool) (rawRow : Row) :
    Except PyErr (RState × Option Row × Bool) :=
  match (match cfg.rowfunc with
         | some f => f rawRow
         | Option.none => some rawRow) with
  | Option.none => .ok acc
  | some row =>
    Report.rowStepProcessed cfg
      (if acc.2.2 then Report.firstrowHeaders cfg acc.1.bumpRow row
       else acc.1.bumpRow)
      acc.2.1 row

/-- The end-of-data block (source lines 595–618): if at least one row
was processed, emit every group-footer band (in order, from the last
row), then the report footer, each with its additional bands and
`newpagebefore`/`newpageafter` handling. -/
def Report.finishRows (cfg : RCfg) (st : RState) (pr : Row) : RState :=
  let st := (cfg.groupfooters.enum).foldl
    (fun st p =>
      let st := Report.placeBand cfg st p.2 pr true 0 pr (.gfooter p.1 pr)
      let st := Report.placeAdditionals cfg st p.2.additionalbands pr
      if p.2.newpageafter then { st with current_offset := cfg.pagesizeH } else st)
    st
  match cfg.reportfooter with
  | some rf =>
    let st := Report.placeBand cfg st rf pr true 0 pr (.rfooter pr)
    Report.placeAdditionals cfg st rf.additionalbands pr
  | Option.none => st

/-- The initial report state (source lines 504–509 and the counters
reset in `__init__`). -/
def Report.initState (cfg : RCfg) : RState :=
  { canvas := { pages := [], current := [] },
    pagenumber := 0,
    rownumber := 0,
    current_offset := cfg.pagesizeH,
    endofpage := cfg.pagesizeH - cfg.bottommargin,
    gfPrev := cfg.groupfooters.map (fun _ => PyVal.none),
    ghPrev := cfg.groupheaders.map (fun _ => PyVal.none),
    sumDetailHt := 0, avgDetailHt := 0, maxDetailHt := 0,
    trace := [] }

/-- `Report.generate` (source lines 493–620): fold the row loop over
the datasource, run the end-of-data block when a row was processed,
and finalize the last page with `canvas.showPage()`. -/
def Report.generate (cfg : RCfg) (rows : List Row) : Except PyErr RState := do
  let (st, prevrow, _) ← rows.foldlM (Report.rowStep cfg) (Report.initState cfg, Option.none, true)
  let st :=
    match prevrow with
    | some pr => Report.finishRows cfg st pr
    | Option.none => st
  return { st with canvas := st.canvas.showPage }

/-! ## Concrete bands, elements and configurations used by the claim
theorems below -/

/-- An element of constant height `h` whose renderer carries `tag`. -/
def elC (h : Int) (tag : String) : LElement :=
  ⟨fun _ => { x := 0, y := 0, height := h, tag := tag }⟩

/-- An element of constant height `h` whose renderer's tag is the value
of the row at key `k`, so that pages record which row produced it. -/
def elG (h : Int) (k : String) : LElement :=
  ⟨fun row => { x := 0, y := 0, height := h, tag := pyStr ((row.lookup k).getD PyVal.none) }⟩

/-- A one-element band of constant height `h`. -/
def bandC (h : Int) (tag : String) : LBand :=
  .mk [elC h tag] [] [] Option.none Option.none false false []

/-!  ### Claim C1 — `SumElement` accumulation  -/

/-- C1: the claim says that for a Summary Field the accumulate step
(`Band.summarize` calling `SumElement.summarize` once per row) succeeds
without error and that a read afterwards returns the sum of the per-row
values.  In the code the accumulate step never succeeds:
`SumElement.summarize` (source line 202) evaluates
`Element.getvalue(self, row)` and the name `Element` is not bound
anywhere in the module (the class was renamed `TextElement`), so the
very first accumulate call raises `NameError` — here evaluated at a
summary field over key `"amount"` and the row `{"amount": 10}`. -/
theorem sumelement_summarize_raises_nameerror :
    SumEl.summarize { base := { key := some "amount" } } [("amount", PyVal.int 10)]
      = Except.error (PyErr.nameError "Element") := rfl

/-!  ### Claim C2 — missing values and text production  -/

/-- The text field of the C2 counterexample: configured with row key
`"name"` and nothing else. -/
def elC2 : TextEl := { key := some "name" }

/-- C2 counterexample: the claim says a Field whose configured key is
absent from the row produces the empty string without raising.  In the
code `row[self.key]` (source line 179) raises `KeyError` when the key
is absent: `gettext` on the empty row fails instead of returning
`Except.ok ""`. -/
theorem gettext_absent_key_raises :
    elC2.gettext [] = Except.error PyErr.keyError := rfl

/-- C2 (amended): if the Field's *resolved value* is null/absent
(`getvalue` returns `None`), producing the Field's text yields the
empty string without raising — the null value is recovered locally.
(A configured key absent from the row, by contrast, raises `KeyError`,
per the counterexample.) -/
theorem gettext_null_value_yields_empty (e : TextEl) (row : Row)
    (h : e.getvalue row = Except.ok PyVal.none) :
    e.gettext row = Except.ok "" := by
  unfold TextEl.gettext
  rw [h]
  rfl

/-- C2 witness: a field whose computed-value function returns `None`
resolves to `None` and produces the empty string. -/
theorem gettext_null_value_yields_empty_witness :
    TextEl.getvalue { getvalueF := some (fun _ => PyVal.none) } [] = Except.ok PyVal.none
      ∧ TextEl.gettext { getvalueF := some (fun _ => PyVal.none) } [] = Except.ok "" :=
  ⟨rfl, gettext_null_value_yields_empty { getvalueF := some (fun _ => PyVal.none) } [] rfl⟩

/-!  ### Claim C3 — value-resolution priority  -/

/-- C3: value resolution of a text Field takes exactly one configured
path, in the priority order computed-function > row-key > literal text >
system-variable > none, never combining paths except the string-concat
variant of the row-key path, which prefixes the configured literal text:
`TextElement.getvalue` coincides with the priority resolver written
from the spec. -/
theorem getvalue_follows_priority (e : TextEl) (row : Row) :
    e.getvalue row = resolvePrioritySpec e row := by
  rcases e with ⟨text, key, getvalueF, sysvar, format, report⟩
  cases getvalueF <;> cases key <;> cases text <;> cases sysvar <;>
    simp [TextEl.getvalue, resolvePrioritySpec, pyStr]

/-!  ### Claim C4 — group-key change detection  -/

/-- The group band of the C4 counterexample: its group-key function
returns the row's `"g"` value, `None` when absent. -/
def bC4 : LBand :=
  .mk [] [] [] Option.none (some (fun row => (row.lookup "g").getD PyVal.none)) false false []

/-- C4 counterexample: the claim says that on every row after the first
a change is reported if and only if the computed group key differs from
the previous row's key.  Running `ischanged` on a first row whose key
computes to `None` and then on a row whose key is `"a"`: the two keys
differ, yet no change is reported, because the code (source line 418)
only reports a change when the *stored previous value* is not `None`. -/
theorem ischanged_none_baseline_counterexample :
    (do
      let (v1, c1) ← bC4.ischanged PyVal.none []
      let (v2, c2) ← bC4.ischanged v1 [("g", PyVal.str "a")]
      return (v1, c1, v2, c2)) =
        Except.ok (PyVal.none, false, PyVal.str "a", false)
      ∧ PyVal.none ≠ PyVal.str "a" := ⟨rfl, by decide⟩

/-- C4 (amended): `ischanged` stores the newly computed key as the
previous value regardless, and reports a change if and only if the
stored previous key is non-null *and* differs from the newly computed
key; in particular the first call for a band instance (previous value
still `None`) never reports a change, and a null computed key never
forms a baseline. -/
theorem ischanged_reports_change_iff (b : LBand) (prev : PyVal) (row : Row)
    (v : PyVal) (h : b.getvalue row = Except.ok v) :
    b.ischanged prev row =
      Except.ok (v, decide (prev ≠ PyVal.none ∧ prev ≠ v)) := by
  unfold LBand.ischanged
  rw [h]
  by_cases hc : prev ≠ PyVal.none ∧ prev ≠ v
  · rw [show (Except.ok v : Except PyErr PyVal) >>= (fun v =>
      pure (if prev ≠ PyVal.none ∧ prev ≠ v then (v, true) else (v, false))) =
      pure (if prev ≠ PyVal.none ∧ prev ≠ v then (v, true) else (v, false)) from rfl]
    simp [hc]
    rfl
  · rw [show (Except.ok v : Except PyErr PyVal) >>= (fun v =>
      pure (if prev ≠ PyVal.none ∧ prev ≠ v then (v, true) else (v, false))) =
      pure (if prev ≠ PyVal.none ∧ prev ≠ v then (v, true) else (v, false)) from rfl]
    simp [hc]
    rfl

/-- C4 witness: a keyed band with previous value `"a"` sees `"b"` and
reports a change. -/
theorem ischanged_reports_change_iff_witness :
    LBand.getvalue (.mk [] [] [] (some "g") Option.none false false [])
        [("g", PyVal.str "b")] = Except.ok (PyVal.str "b")
      ∧ LBand.ischanged (.mk [] [] [] (some "g") Option.none false false [])
          (PyVal.str "a") [("g", PyVal.str "b")] =
        Except.ok (PyVal.str "b", true) := by
  constructor
  · rfl
  · have := ischanged_reports_change_iff
      (.mk [] [] [] (some "g") Option.none false false [])
      (PyVal.str "a") [("g", PyVal.str "b")] (PyVal.str "b") rfl
    simpa using this

/-!  ### Claim C10 — alignment cascade of `TextRenderer.render`  -/

/-- Whether an alignment string is a prefix of one of the five
recognized alignment words. -/
def alignRecognized (a : String) : Bool :=
  startswith "right" a || startswith "center" a || startswith "centre" a
    || startswith "left" a || startswith "align" a

theorem renderLine_length (t : TRend) (lm off : Int) (s : String) :
    (t.renderLine lm off s).length = if alignRecognized t.align then 1 else 0 := by
  simp only [TRend.renderLine, alignRecognized]
  by_cases h1 : startswith "right" t.align <;>
    by_cases h2 : startswith "center" t.align <;>
      by_cases h3 : startswith "centre" t.align <;>
        by_cases h4 : startswith "left" t.align <;>
          by_cases h5 : startswith "align" t.align <;>
            simp [h1, h2, h3, h4, h5]

theorem render_aux_length (t : TRend) (lm : Int) (lines : List String)
    (acc : List DrawCmd) (off : Int) :
    ((lines.foldl
      (fun (a : List DrawCmd × Int) text =>
        (a.1 ++ t.renderLine lm a.2 text, a.2 + t.lineheight))
      (acc, off)).1).length =
      acc.length + if alignRecognized t.align then lines.length else 0 := by
  induction lines generalizing acc off with
  | nil => simp
  | cons s rest ih =>
    simp only [List.foldl_cons]
    rw [ih]
    simp [renderLine_length]
    by_cases h : alignRecognized t.align <;> simp [h] <;> omega

/-- C10: rendering a text drawable never fails on account of the
alignment string; a drawing command is issued for each computed line if
and only if the alignment string is a prefix of one of `"right"`,
`"center"`, `"centre"`, `"left"`, `"align"` (tested in that order —
the empty string is a prefix of `"right"`, so it selects right
alignment); any other alignment string draws nothing; and the
renderer's height is the line height times the line count regardless of
the alignment string, so it contributes to the band height either
way. -/
theorem render_alignment_cascade (t : TRend) (lm off : Int) :
    ((t.render lm off).length =
        if alignRecognized t.align then t.lines.length else 0)
      ∧ (∀ s, ({ t with align := "" } : TRend).renderLine lm off s =
          [DrawCmd.drawRightString (t.x + lm) (-1 * (t.y + off + t.fontSize)) s])
      ∧ (∀ a, ({ t with align := a } : TRend).height = t.height) := by
  refine ⟨?_, ?_, ?_⟩
  · simpa using render_aux_length t lm t.lines [] off
  · intro s
    rfl
  · intro a
    simp [TRend.height]

/-!  ### Claim C5 — band height and child-band stacking  -/

theorem genElements_aux (els : List LElement) (row : Row) (a : Int) (l : List LRend) :
    els.foldl
      (fun (acc : Int × List LRend) e =>
        let renderer := e.gen row
        (max acc.1 (renderer.height + renderer.y), acc.2 ++ [renderer]))
      (a, l) =
    (els.foldl (fun m e => max m ((e.gen row).height + (e.gen row).y)) a,
     l ++ els.map (fun e => e.gen row)) := by
  induction els generalizing a l with
  | nil => simp
  | cons e rest ih => simp [ih]

/-- The element pass splits into the running maximum (started at `0`)
and the renderers in order. -/
theorem genElements_eq (els : List LElement) (row : Row) :
    genElements els row =
      (els.foldl (fun m e => max m ((e.gen row).height + (e.gen row).y)) 0,
       els.map (fun e => e.gen row)) := by
  simpa using genElements_aux els row 0 []

theorem le_foldl_max (l : List LElement) (row : Row) (init : Int) :
    init ≤ l.foldl (fun m e => max m ((e.gen row).height + (e.gen row).y)) init := by
  induction l generalizing init with
  | nil => simp
  | cons e rest ih => exact le_trans (le_max_left _ _) (ih _)

/-- The claimed placement of child-band drawables: each child's
renderers shifted down by the height accumulated so far (`base`), the
next child's base increased by this child's height. -/
def shiftedChildren : List LBand → Row → Int → List LRend
  | [], _, _ => []
  | cb :: rest, row, base =>
    (cb.generate row).2.map (fun r => r.applyoffset base) ++
      shiftedChildren rest row (base + (cb.generate row).1)

theorem genChildren_spec (cbs : List LBand) (row : Row) (acc : Int × List LRend) :
    LBand.genChildren cbs row acc =
      (acc.1 + (cbs.map (fun cb => (cb.generate row).1)).sum,
       acc.2 ++ shiftedChildren cbs row acc.1) := by
  induction cbs generalizing acc with
  | nil => simp [LBand.genChildren, shiftedChildren]
  | cons cb rest ih =>
    simp only [LBand.genChildren, shiftedChildren, List.map_cons, List.sum_cons]
    rw [ih]
    simp [add_assoc]

/-- Unfolding of `LBand.generate` through the constructor. -/
theorem generate_mk (els : List LElement) (cbs abs : List LBand)
    (k : Option String) (f : Option (Row → PyVal)) (npb npa : Bool)
    (bgs : List LBackground) (row : Row) :
    LBand.generate (.mk els cbs abs k f npb npa bgs) row =
      (let afterEls := genElements els row
       let afterCh := LBand.genChildren cbs row afterEls
       let bgRenderers := bgs.map (fun bg =>
         { x := bg.x, y := bg.y, height := afterCh.1 - bg.y - bg.bottomMargin,
           tag := "background" : LRend })
       (afterCh.1, bgRenderers ++ afterCh.2)) := by
  rw [LBand.generate]

/-- Every band's computed height is nonnegative: the element maximum
starts at `0` and child heights only add. -/
theorem generate_height_nonneg : ∀ (b : LBand) (row : Row), 0 ≤ (b.generate row).1
  | .mk els cbs abs k f npb npa bgs, row => by
    have IH : ∀ cb ∈ cbs, 0 ≤ (cb.generate row).1 := fun cb _ =>
      generate_height_nonneg cb row
    rw [generate_mk]
    simp only [genChildren_spec, genElements_eq]
    have h0 : 0 ≤ els.foldl (fun m e => max m ((e.gen row).height + (e.gen row).y)) 0 :=
      le_foldl_max els row 0
    have h1 : 0 ≤ (cbs.map (fun cb => (cb.generate row).1)).sum := by
      apply List.sum_nonneg
      intro x hx
      obtain ⟨cb, hcb, rfl⟩ := List.mem_map.mp hx
      exact IH cb hcb
    simpa using add_nonneg h0 h1
termination_by b _ => sizeOf b
decreasing_by
  simp_wf
  have h := List.sizeOf_lt_of_mem (by assumption : cb ∈ cbs)
  omega

/-- The element of the C5 counterexample: its renderer lies entirely
above the band origin (`y = -50`, height `10`). -/
def elNeg : LElement := ⟨fun _ => { x := 0, y := -50, height := 10, tag := "e" }⟩

/-- The childless one-element band of the C5 counterexample. -/
def bC5 : LBand := .mk [elNeg] [] [] Option.none Option.none false false []

/-- C5 counterexample: the claim says the returned height equals the
maximum over the band's own elements of (drawable height + y-offset)
plus the sum of the child heights — for this childless band that value
is `10 + (-50) + 0 = -40`.  The code starts the running maximum at `0`
(`elementlist = [0]`, source line 374), so the generated height is `0`,
not `-40`. -/
theorem band_height_floor_counterexample :
    (bC5.generate []).1 = 0
      ∧ (bC5.generate []).1 ≠
          ((elNeg.gen []).height + (elNeg.gen []).y)
            + (bC5.childbands.map (fun cb => (cb.generate ([] : Row)).1)).sum := by
  exact ⟨rfl, by decide⟩

/-- C5 (amended): the height returned by `Band.generate` equals the
maximum, *started at 0*, over the band's own elements of (drawable
height + y-offset), plus the sum of the heights of the child bands (so
a band whose elements all have negative extents contributes `0` for its
own elements, not the negative maximum); the drawables are the
background renderers (sized against the final height), then the band's
own element renderers in order, then each child band's drawables
shifted down by the band's height accumulated so far; and the height
never shrinks as children are processed, every band height being
nonnegative. -/
theorem band_generate_spec (b : LBand) (row : Row) :
    ((b.generate row).1 =
        (b.elements.foldl (fun m e => max m ((e.gen row).height + (e.gen row).y)) 0)
          + (b.childbands.map (fun cb => (cb.generate row).1)).sum)
      ∧ ((b.generate row).2 =
          (b.backgrounds.map (fun bg =>
            { x := bg.x, y := bg.y,
              height := (b.generate row).1 - bg.y - bg.bottomMargin,
              tag := "background" : LRend }))
            ++ b.elements.map (fun e => e.gen row)
            ++ shiftedChildren b.childbands row
                (b.elements.foldl (fun m e => max m ((e.gen row).height + (e.gen row).y)) 0))
      ∧ (b.elements.foldl (fun m e => max m ((e.gen row).height + (e.gen row).y)) 0
          ≤ (b.generate row).1)
      ∧ (∀ cb ∈ b.childbands, 0 ≤ (cb.generate row).1)
      ∧ 0 ≤ (b.generate row).1 := by
  obtain ⟨els, cbs, abs, k, f, npb, npa, bgs⟩ := b
  have hsum : 0 ≤ (cbs.map (fun cb => (cb.generate row).1)).sum := by
    apply List.sum_nonneg
    intro x hx
    obtain ⟨cb, hcb, rfl⟩ := List.mem_map.mp hx
    exact generate_height_nonneg cb row
  refine ⟨?_, ?_, ?_, ?_, ?_⟩
  · rw [generate_mk]
    simp [genChildren_spec, genElements_eq]
  · simp only [generate_mk, genChildren_spec, genElements_eq,
      LBand.elements_mk, LBand.childbands_mk, LBand.backgrounds_mk]
    simp [List.append_assoc]
  · rw [generate_mk]
    simp only [genChildren_spec, genElements_eq, LBand.elements_mk]
    have := le_add_of_nonneg_right (a :=
      els.foldl (fun m e => max m ((e.gen row).height + (e.gen row).y)) 0) hsum
    simpa using this
  · intro cb hcb
    exact generate_height_nonneg cb row
  · rw [generate_mk]
    simp only [genChildren_spec, genElements_eq]
    simpa using add_nonneg (le_foldl_max els row 0) hsum

/-- The band of the C5 witness: one element of height 10 and one child
band of height 20. -/
def bW : LBand :=
  .mk [elC 10 "p"] [bandC 20 "c"] [] Option.none Option.none false false []

/-- C5 witness: the amended height formula evaluated on a concrete
band with a child, and the child-height nonnegativity discharged at the
concrete child. -/
theorem band_generate_spec_witness :
    (bW.generate []).1 =
        (bW.elements.foldl (fun m e => max m ((e.gen []).height + (e.gen []).y)) 0)
          + (bW.childbands.map (fun cb => (cb.generate ([] : Row)).1)).sum
      ∧ 0 ≤ ((bandC 20 "c").generate ([] : Row)).1 :=
  ⟨(band_generate_spec bW []).1,
   (band_generate_spec bW []).2.2.2.1 (bandC 20 "c") (List.Mem.head _)⟩

/-!  ### Claim C8 — empty datasource  -/

/-- C8: when the datasource yields no rows, generation succeeds, the
row loop and the end-of-data block never run — so no detail,
group-footer, or report-footer content (indeed no content at all) is
emitted and the event trace is empty — and the single (blank) current
page is finalized by the closing `canvas.showPage()`: the canvas holds
exactly one page, the empty one. -/
theorem empty_datasource_one_blank_page (cfg : RCfg) :
    Report.generate cfg [] =
      Except.ok { Report.initState cfg with
        canvas := { pages := [[]], current := [] } }
      ∧ (Report.initState cfg).trace = [] := by
  constructor
  · rfl
  · rfl

/-!  ### Helper lemmas about `Report.newpage` -/

theorem emitPageBand_none (st : RState) (fpo : Bool) (ev : REvent) (row : Row) :
    Report.emitPageBand st Option.none fpo ev row = st := rfl

theorem emitPageFooter_none (cfg : RCfg) (row : Row)
    (h : cfg.pagefooter = Option.none) (st : RState) :
    Report.emitPageFooter cfg st row = st := by
  unfold Report.emitPageFooter
  rw [h]

theorem emitPageBand_pagenumber (st : RState) (ob : Option LBand)
    (fpo : Bool) (ev : REvent) (row : Row) :
    (Report.emitPageBand st ob fpo ev row).pagenumber = st.pagenumber := by
  unfold Report.emitPageBand
  cases ob
  · rfl
  · split_ifs <;> rfl

theorem emitPageFooter_pagenumber (cfg : RCfg) (st : RState) (row : Row) :
    (Report.emitPageFooter cfg st row).pagenumber = st.pagenumber := by
  unfold Report.emitPageFooter
  cases cfg.pagefooter <;> rfl

theorem newpage_pagenumber (cfg : RCfg) (st : RState) (row : Row) :
    (Report.newpage cfg st row).pagenumber = st.pagenumber + 1 := by
  unfold Report.newpage
  rw [emitPageFooter_pagenumber, emitPageBand_pagenumber, emitPageBand_pagenumber,
    emitPageBand_pagenumber]
  rfl

/-- With no title, page-header, report-header or page-footer bands and
at least one page already begun, `newpage` just finalizes the current
page and resets the cursor to the top margin. -/
theorem newpage_no_pagebands (cfg : RCfg) (st : RState) (row : Row)
    (ht : cfg.titleband = Option.none) (hph : cfg.pageheader = Option.none)
    (hrh : cfg.reportheader = Option.none) (hpf : cfg.pagefooter = Option.none)
    (hpn : st.pagenumber ≠ 0) :
    Report.newpage cfg st row =
      { st with
        canvas := { pages := st.canvas.pages ++ [st.canvas.current], current := [] },
        pagenumber := st.pagenumber + 1,
        endofpage := cfg.pagesizeH - cfg.bottommargin,
        current_offset := cfg.topmargin } := by
  unfold Report.newpage
  rw [ht, hph, hrh, emitPageBand_none, emitPageBand_none, emitPageBand_none,
    emitPageFooter_none cfg row hpf]
  unfold Report.startPage
  rw [if_pos hpn]
  rfl

/-!  ### Claim C6 — page-break decision for the detail band  -/

/-- The report of the C6 scenario: a detail band of constant height 20
(tagged with the row's `"name"` value), default margins 36/36, page
height 117, so the content capacity after margins is exactly
`117 - 36 - 36 = 45` units. -/
def cfg6 : RCfg :=
  { detailband := some (.mk [elG 20 "name"] [] [] Option.none Option.none false false []),
    pagesizeH := 117 }

/-- The three rows of the C6 scenario. -/
def rows6 : List Row :=
  [[("name", .str "Alice")], [("name", .str "Bob")], [("name", .str "Carol")]]

/-- C6: a band placed with the plain overflow check (the detail-band
site, source line 581) stays on the current page, rendered at the
current offset, exactly when `current_offset + band_height <
end_of_page`; when `current_offset + band_height >= end_of_page` a new
page is started before placement.  In the scenario — 3 detail rows of
height 20 and page capacity exactly 45 after margins — the first two
rows land on page 1 (offsets 36 and 56), the page break falls between
row 2 and row 3, and the recorded page count is 2. -/
theorem addAndAdvance_pagenumber (st : RState) (el : Int × List LRend) :
    (Report.addAndAdvance st el).pagenumber = st.pagenumber := rfl

theorem detail_pagebreak_decision :
    (∀ (cfg : RCfg) (st : RState) (b : LBand) (row : Row) (ev : REvent),
      (st.current_offset + (b.generate row).1 < st.endofpage →
        Report.placeBand cfg st b row false 0 row ev =
          { st with
            trace := st.trace ++ [ev],
            canvas := { st.canvas with
              current := st.canvas.current ++
                (b.generate row).2.map
                  (fun r => { rend := r, offset := st.current_offset }) },
            current_offset := st.current_offset + (b.generate row).1 })
      ∧ (st.current_offset + (b.generate row).1 ≥ st.endofpage →
          (Report.placeBand cfg st b row false 0 row ev).pagenumber = st.pagenumber + 1))
    ∧ (Report.generate cfg6 rows6).map
        (fun st => (st.pagenumber, st.canvas.pages.map (fun (p : List RItem) =>
          p.map (fun (it : RItem) => (it.rend.tag, it.offset))))) =
      Except.ok (2, [[("Alice", 36), ("Bob", 56)], [("Carol", 36)]]) := by
  constructor
  · intro cfg st b row ev
    constructor
    · intro hlt
      unfold Report.placeBand
      rw [if_neg]
      · rfl
      · simp only [not_or]
        refine ⟨by simp, by omega⟩
    · intro hge
      unfold Report.placeBand
      rw [if_pos (Or.inr (by omega))]
      rw [addAndAdvance_pagenumber, newpage_pagenumber]
  · rfl

/-- C6 witness: in the scenario state just before row 3 of `cfg6`
(cursor at 76, end of page 81, detail height 20) the overflow check
fires and a break occurs; conclusion instantiated from the general
part. -/
theorem detail_pagebreak_decision_witness :
    (76 : Int) + 20 ≥ 81 ∧
      (Report.placeBand cfg6
        { canvas := { pages := [], current := [] }, pagenumber := 1, rownumber := 2,
          current_offset := 76, endofpage := 81, gfPrev := [], ghPrev := [],
          sumDetailHt := 40, avgDetailHt := 20, maxDetailHt := 20, trace := [] }
        (.mk [elG 20 "name"] [] [] Option.none Option.none false false [])
        [("name", .str "Carol")] false 0 [("name", .str "Carol")]
        (REvent.detailE [("name", .str "Carol")])).pagenumber = 2 := by
  refine ⟨by decide, ?_⟩
  exact (detail_pagebreak_decision.1 cfg6
    { canvas := { pages := [], current := [] }, pagenumber := 1, rownumber := 2,
      current_offset := 76, endofpage := 81, gfPrev := [], ghPrev := [],
      sumDetailHt := 40, avgDetailHt := 20, maxDetailHt := 20, trace := [] }
    (.mk [elG 20 "name"] [] [] Option.none Option.none false false [])
    [("name", .str "Carol")] (REvent.detailE [("name", .str "Carol")])).2 (by decide)

/-!  ### Claim C9 — `newpageafter` cursor reset  -/

/-- The group footer of the C9 scenario: height 5, keyed on `"g"`,
with `newpageafter` set. -/
def gf9 : LBand := .mk [elC 5 "gf"] [] [] (some "g") Option.none false true []

/-- The report of the C9 scenario: a page header of height 10, a detail
band of height 20 (tagged with the row's `"g"` value), the
`newpageafter` group footer, page height 200, top margin 36. -/
def cfg9 : RCfg :=
  { pageheader := some (bandC 10 "ph"),
    detailband := some (.mk [elG 20 "g"] [] [] Option.none Option.none false false []),
    groupfooters := [gf9],
    pagesizeH := 200 }

/-- The two rows of the C9 scenario; the group key changes between
them, so the footer (with `newpageafter`) is emitted mid-run. -/
def rows9 : List Row := [[("g", PyVal.str "a")], [("g", PyVal.str "b")]]

/-- C9 counterexample: the claim says that after a band with
`newpageafter` the next band's recorded y-offset equals the configured
top margin.  In the scenario the group footer with `newpageafter` is
emitted on page 1 when the group key changes; the next band placed (the
detail band of row 2) is rendered on page 2 at offset
`46 = topmargin + pageheader height`, not at the top margin `36`,
because `newpage` re-emits the per-page bands below the top margin
before the next band is placed. -/
theorem newpageafter_topmargin_counterexample :
    (Report.generate cfg9 rows9).map (fun st =>
        st.canvas.pages.map (fun (p : List RItem) =>
          p.map (fun (it : RItem) => (it.rend.tag, it.offset)))) =
      Except.ok [[("ph", 36), ("a", 46), ("gf", 66)],
                 [("ph", 36), ("b", 46), ("gf", 66)]]
      ∧ cfg9.topmargin = 36 ∧ ((46 : Int) ≠ 36) :=
  ⟨rfl, rfl, by decide⟩

/-- C9 (amended): after a band with `newpageafter` is emitted the
cursor is set past the end of the page (`current_offset = pagesize`,
source line 551), so the next band placed always starts a new page
regardless of the space remaining; when the report has no title,
page-header, report-header or page-footer band, the next band's
drawables are recorded at exactly the configured top margin.  (With
per-page bands configured, the next band lands at the top margin plus
their heights — see the counterexample.) -/
theorem newpageafter_next_band_at_topmargin (cfg : RCfg) (st : RState)
    (b : LBand) (row : Row) (ev : REvent)
    (hoff : st.current_offset = cfg.pagesizeH)
    (hep : st.endofpage ≤ cfg.pagesizeH)
    (hpn : st.pagenumber ≠ 0)
    (ht : cfg.titleband = Option.none) (hph : cfg.pageheader = Option.none)
    (hrh : cfg.reportheader = Option.none) (hpf : cfg.pagefooter = Option.none) :
    Report.placeBand cfg st b row false 0 row ev =
      { st with
        trace := st.trace ++ [ev],
        canvas := { pages := st.canvas.pages ++ [st.canvas.current],
                    current := (b.generate row).2.map
                      (fun r => { rend := r, offset := cfg.topmargin }) },
        pagenumber := st.pagenumber + 1,
        endofpage := cfg.pagesizeH - cfg.bottommargin,
        current_offset := cfg.topmargin + (b.generate row).1 } := by
  have hh : 0 ≤ (b.generate row).1 := generate_height_nonneg b row
  unfold Report.placeBand
  rw [if_pos (Or.inr (by omega))]
  rw [newpage_no_pagebands cfg { st with trace := st.trace ++ [ev] } row ht hph hrh hpf hpn]
  rfl

/-- C9 witness: a concrete state with the cursor past the page end
(after a `newpageafter` band) and a bare report configuration; the next
band is rendered at the top margin 36. -/
theorem newpageafter_next_band_at_topmargin_witness :
    Report.placeBand { pagesizeH := 200 }
      { canvas := { pages := [], current := [] }, pagenumber := 1, rownumber := 1,
        current_offset := 200, endofpage := 164, gfPrev := [], ghPrev := [],
        sumDetailHt := 0, avgDetailHt := 0, maxDetailHt := 0, trace := [] }
      (bandC 20 "w") [] false 0 [] (REvent.detailE []) =
      { canvas := { pages := [[]],
                    current := [{ rend := { x := 0, y := 0, height := 20, tag := "w" },
                                  offset := 36 }] },
        pagenumber := 2, rownumber := 1,
        current_offset := 56, endofpage := 164, gfPrev := [], ghPrev := [],
        sumDetailHt := 0, avgDetailHt := 0, maxDetailHt := 0,
        trace := [REvent.detailE []] } := by
  have h := newpageafter_next_band_at_topmargin { pagesizeH := 200 }
    { canvas := { pages := [], current := [] }, pagenumber := 1, rownumber := 1,
      current_offset := 200, endofpage := 164, gfPrev := [], ghPrev := [],
      sumDetailHt := 0, avgDetailHt := 0, maxDetailHt := 0, trace := [] }
    (bandC 20 "w") [] (REvent.detailE []) rfl (by decide) (by decide) rfl rfl rfl rfl
  rw [h]
  rfl

/-!  ### Claim C7 — footer/header row asymmetry at group boundaries

The trace lemmas below classify the events each pagination operation
appends: the per-page bands re-emitted by `newpage` contribute only
page events, a placed band contributes its own generation event, and
additional bands contribute `aband` events — so any `gfooter` event
appearing during a row step can only come from the footer flush (which
generates from the previous row), and any `gheader` event only from the
header emission (which generates from the current row). -/

/-- Events of the per-page bands re-emitted by `newpage`. -/
def isPageEvent (e : REvent) : Prop :=
  e = .title ∨ e = .pageheaderE ∨ e = .reportheaderE ∨ e = .pagefooterE

theorem emitPageBand_trace (st : RState) (ob : Option LBand) (fpo : Bool)
    (ev : REvent) (row : Row) :
    ∃ t, (Report.emitPageBand st ob fpo ev row).trace = st.trace ++ t
      ∧ ∀ e ∈ t, e = ev := by
  unfold Report.emitPageBand
  cases ob
  · exact ⟨[], by simp, by simp⟩
  · split_ifs
    · exact ⟨[ev], rfl, by simp⟩
    · exact ⟨[], by simp, by simp⟩

theorem emitPageFooter_trace (cfg : RCfg) (st : RState) (row : Row) :
    ∃ t, (Report.emitPageFooter cfg st row).trace = st.trace ++ t
      ∧ ∀ e ∈ t, e = REvent.pagefooterE := by
  unfold Report.emitPageFooter
  cases cfg.pagefooter
  · exact ⟨[], by simp, by simp⟩
  · exact ⟨[REvent.pagefooterE], rfl, by simp⟩

theorem startPage_trace (cfg : RCfg) (st : RState) :
    (Report.startPage cfg st).trace = st.trace := rfl

theorem newpage_trace (cfg : RCfg) (st : RState) (row : Row) :
    ∃ t, (Report.newpage cfg st row).trace = st.trace ++ t
      ∧ ∀ e ∈ t, isPageEvent e := by
  unfold Report.newpage
  obtain ⟨t1, h1, c1⟩ := emitPageBand_trace (Report.startPage cfg st)
    cfg.titleband true .title row
  obtain ⟨t2, h2, c2⟩ := emitPageBand_trace _ cfg.pageheader false .pageheaderE row
  obtain ⟨t3, h3, c3⟩ := emitPageBand_trace _ cfg.reportheader true .reportheaderE row
  obtain ⟨t4, h4, c4⟩ := emitPageFooter_trace cfg
    (Report.emitPageBand
      (Report.emitPageBand
        (Report.emitPageBand (Report.startPage cfg st) cfg.titleband true .title row)
        cfg.pageheader false .pageheaderE row)
      cfg.reportheader true .reportheaderE row) row
  refine ⟨t1 ++ t2 ++ t3 ++ t4, ?_, ?_⟩
  · rw [h4, h3, h2, h1, startPage_trace]
    simp [List.append_assoc]
  · intro e he
    simp only [List.mem_append] at he
    rcases he with ((he | he) | he) | he
    · exact Or.inl (c1 e he)
    · exact Or.inr (Or.inl (c2 e he))
    · exact Or.inr (Or.inr (Or.inl (c3 e he)))
    · exact Or.inr (Or.inr (Or.inr (c4 e he)))

theorem addAndAdvance_trace (st : RState) (el : Int × List LRend) :
    (Report.addAndAdvance st el).trace = st.trace := rfl

theorem placeBand_trace (cfg : RCfg) (st : RState) (b : LBand) (genrow : Row)
    (useNPB : Bool) (extra : Int) (nprow : Row) (ev : REvent) :
    ∃ t, (Report.placeBand cfg st b genrow useNPB extra nprow ev).trace =
        st.trace ++ [ev] ++ t
      ∧ ∀ e ∈ t, isPageEvent e := by
  unfold Report.placeBand
  split_ifs
  · obtain ⟨t, ht, hc⟩ := newpage_trace cfg { st with trace := st.trace ++ [ev] } nprow
    exact ⟨t, by rw [addAndAdvance_trace, ht], hc⟩
  · exact ⟨[], by rw [addAndAdvance_trace]; simp, by simp⟩

theorem placeAdditionals_trace (cfg : RCfg) (bands : List LBand) (row : Row)
    (st : RState) :
    ∃ t, (Report.placeAdditionals cfg st bands row).trace = st.trace ++ t
      ∧ ∀ e ∈ t, e = REvent.aband row ∨ isPageEvent e := by
  induction bands generalizing st with
  | nil => exact ⟨[], by simp [Report.placeAdditionals], by simp⟩
  | cons ab rest ih =>
    obtain ⟨t1, h1, c1⟩ := placeBand_trace cfg st ab row false 0 row (.aband row)
    obtain ⟨t2, h2, c2⟩ :=
      ih (Report.placeBand cfg st ab row false 0 row (.aband row))
    refine ⟨[REvent.aband row] ++ t1 ++ t2, ?_, ?_⟩
    · show (Report.placeAdditionals cfg _ rest row).trace = _
      rw [h2, h1]
      simp [List.append_assoc]
    · intro e he
      simp only [List.mem_append, List.mem_singleton] at he
      rcases he with (he | he) | he
      · exact Or.inl he
      · exact Or.inr (c1 e he)
      · rcases c2 e he with h | h
        · exact Or.inl h
        · exact Or.inr h

theorem afterBreak_trace (cfg : RCfg) (band : LBand) (st : RState) :
    (Report.afterBreak cfg band st).trace = st.trace := by
  unfold Report.afterBreak
  split_ifs <;> rfl

theorem footerStep_trace (cfg : RCfg) (prevrow row : Row) (st : RState) (i : Nat) :
    ∃ t, (Report.footerStep cfg prevrow row st i).trace = st.trace ++ t
      ∧ (∀ e ∈ t, e = REvent.gfooter i prevrow ∨ e = REvent.aband row ∨ isPageEvent e)
      ∧ (i < cfg.groupfooters.length → REvent.gfooter i prevrow ∈ t) := by
  unfold Report.footerStep
  cases hg : cfg.groupfooters.get? i with
  | none =>
    refine ⟨[], by simp, by simp, ?_⟩
    intro hlen
    rw [List.get?_eq_none] at hg
    omega
  | some band =>
    obtain ⟨t1, h1, c1⟩ :=
      placeBand_trace cfg st band prevrow true 0 prevrow (.gfooter i prevrow)
    obtain ⟨t2, h2, c2⟩ := placeAdditionals_trace cfg band.additionalbands row
      (Report.placeBand cfg st band prevrow true 0 prevrow (.gfooter i prevrow))
    refine ⟨[REvent.gfooter i prevrow] ++ t1 ++ t2, ?_, ?_, ?_⟩
    · rw [afterBreak_trace, h2, h1]
      simp [List.append_assoc]
    · intro e he
      simp only [List.mem_append, List.mem_singleton] at he
      rcases he with (he | he) | he
      · exact Or.inl he
      · exact Or.inr (Or.inr (c1 e he))
      · rcases c2 e he with h | h
        · exact Or.inr (Or.inl h)
        · exact Or.inr (Or.inr h)
    · intro _
      simp

theorem footerFoldl_trace (cfg : RCfg) (prevrow row : Row) (l : List Nat)
    (st : RState) :
    ∃ t, (l.foldl (Report.footerStep cfg prevrow row) st).trace = st.trace ++ t
      ∧ (∀ e ∈ t, (∃ i ∈ l, e = REvent.gfooter i prevrow)
          ∨ e = REvent.aband row ∨ isPageEvent e)
      ∧ (∀ i ∈ l, i < cfg.groupfooters.length → REvent.gfooter i prevrow ∈ t) := by
  induction l generalizing st with
  | nil => exact ⟨[], by simp, by simp, by simp⟩
  | cons j rest ih =>
    obtain ⟨t1, h1, c1, k1⟩ := footerStep_trace cfg prevrow row st j
    obtain ⟨t2, h2, c2, k2⟩ := ih (Report.footerStep cfg prevrow row st j)
    refine ⟨t1 ++ t2, ?_, ?_, ?_⟩
    · show (rest.foldl (Report.footerStep cfg prevrow row) _).trace = _
      rw [h2, h1]
      simp [List.append_assoc]
    · intro e he
      simp only [List.mem_append] at he
      rcases he with he | he
      · rcases c1 e he with h | h | h
        · exact Or.inl ⟨j, by simp, h⟩
        · exact Or.inr (Or.inl h)
        · exact Or.inr (Or.inr h)
      · rcases c2 e he with ⟨i, hi, h⟩ | h | h
        · exact Or.inl ⟨i, by simp [hi], h⟩
        · exact Or.inr (Or.inl h)
        · exact Or.inr (Or.inr h)
    · intro i hi hlen
      simp only [List.mem_cons] at hi
      rcases hi with rfl | hi
      · exact List.mem_append.mpr (Or.inl (k1 hlen))
      · exact List.mem_append.mpr (Or.inr (k2 i hi hlen))

theorem headerStep_trace (cfg : RCfg) (row : Row) (st : RState) (i : Nat) :
    ∃ t, (Report.headerStep cfg row st i).trace = st.trace ++ t
      ∧ (∀ e ∈ t, e = REvent.gheader i row ∨ e = REvent.aband row ∨ isPageEvent e)
      ∧ (i < cfg.groupheaders.length → REvent.gheader i row ∈ t) := by
  unfold Report.headerStep
  cases hg : cfg.groupheaders.get? i with
  | none =>
    refine ⟨[], by simp, by simp, ?_⟩
    intro hlen
    rw [List.get?_eq_none] at hg
    omega
  | some band =>
    obtain ⟨t1, h1, c1⟩ :=
      placeBand_trace cfg st band row true st.avgDetailHt row (.gheader i row)
    obtain ⟨t2, h2, c2⟩ := placeAdditionals_trace cfg band.additionalbands row
      (Report.placeBand cfg st band row true st.avgDetailHt row (.gheader i row))
    refine ⟨[REvent.gheader i row] ++ t1 ++ t2, ?_, ?_, ?_⟩
    · rw [afterBreak_trace, h2, h1]
      simp [List.append_assoc]
    · intro e he
      simp only [List.mem_append, List.mem_singleton] at he
      rcases he with (he | he) | he
      · exact Or.inl he
      · exact Or.inr (Or.inr (c1 e he))
      · rcases c2 e he with h | h
        · exact Or.inr (Or.inl h)
        · exact Or.inr (Or.inr h)
    · intro _
      simp

theorem headerFoldl_trace (cfg : RCfg) (row : Row) (l : List Nat) (st : RState) :
    ∃ t, (l.foldl (Report.headerStep cfg row) st).trace = st.trace ++ t
      ∧ (∀ e ∈ t, (∃ i ∈ l, e = REvent.gheader i row)
          ∨ e = REvent.aband row ∨ isPageEvent e)
      ∧ (∀ i ∈ l, i < cfg.groupheaders.length → REvent.gheader i row ∈ t) := by
  induction l generalizing st with
  | nil => exact ⟨[], by simp, by simp, by simp⟩
  | cons j rest ih =>
    obtain ⟨t1, h1, c1, k1⟩ := headerStep_trace cfg row st j
    obtain ⟨t2, h2, c2, k2⟩ := ih (Report.headerStep cfg row st j)
    refine ⟨t1 ++ t2, ?_, ?_, ?_⟩
    · show (rest.foldl (Report.headerStep cfg row) _).trace = _
      rw [h2, h1]
      simp [List.append_assoc]
    · intro e he
      simp only [List.mem_append] at he
      rcases he with he | he
      · rcases c1 e he with h | h | h
        · exact Or.inl ⟨j, by simp, h⟩
        · exact Or.inr (Or.inl h)
        · exact Or.inr (Or.inr h)
      · rcases c2 e he with ⟨i, hi, h⟩ | h | h
        · exact Or.inl ⟨i, by simp [hi], h⟩
        · exact Or.inr (Or.inl h)
        · exact Or.inr (Or.inr h)
    · intro i hi hlen
      simp only [List.mem_cons] at hi
      rcases hi with rfl | hi
      · exact List.mem_append.mpr (Or.inl (k1 hlen))
      · exact List.mem_append.mpr (Or.inr (k2 i hi hlen))

theorem flushFooters_trace (cfg : RCfg) (st : RState) (lc : Option Nat)
    (prevrow row : Row) :
    ∃ t, (Report.flushFooters cfg st lc prevrow row).trace = st.trace ++ t
      ∧ (∀ e ∈ t, (∃ i, e = REvent.gfooter i prevrow)
          ∨ e = REvent.aband row ∨ isPageEvent e) := by
  unfold Report.flushFooters
  cases lc with
  | none => exact ⟨[], by simp, by simp⟩
  | some L =>
    obtain ⟨t, ht, hc, _⟩ := footerFoldl_trace cfg prevrow row (List.range (L + 1)) st
    refine ⟨t, ht, ?_⟩
    intro e he
    rcases hc e he with ⟨i, _, h⟩ | h | h
    · exact Or.inl ⟨i, h⟩
    · exact Or.inr (Or.inl h)
    · exact Or.inr (Or.inr h)

theorem emitHeaders_trace (cfg : RCfg) (st : RState) (fc : Option Nat) (row : Row) :
    ∃ t, (Report.emitHeaders cfg st fc row).trace = st.trace ++ t
      ∧ (∀ e ∈ t, (∃ i, e = REvent.gheader i row)
          ∨ e = REvent.aband row ∨ isPageEvent e) := by
  unfold Report.emitHeaders
  cases fc with
  | none => exact ⟨[], by simp, by simp⟩
  | some F =>
    obtain ⟨t, ht, hc, _⟩ := headerFoldl_trace cfg row
      (List.range' F (cfg.groupheaders.length - F)) st
    refine ⟨t, ht, ?_⟩
    intro e he
    rcases hc e he with ⟨i, _, h⟩ | h | h
    · exact Or.inl ⟨i, h⟩
    · exact Or.inr (Or.inl h)
    · exact Or.inr (Or.inr h)

theorem updateDetailStats_trace (cfg : RCfg) (st : RState) (row : Row) :
    (Report.updateDetailStats cfg st row).trace = st.trace := by
  unfold Report.updateDetailStats
  cases cfg.detailband <;> rfl

theorem placeDetail_trace (cfg : RCfg) (st : RState) (row : Row) :
    ∃ t, (Report.placeDetail cfg st row).trace = st.trace ++ t
      ∧ ∀ e ∈ t, e = REvent.detailE row ∨ e = REvent.aband row ∨ isPageEvent e := by
  unfold Report.placeDetail
  cases cfg.detailband with
  | none => exact ⟨[], by simp, by simp⟩
  | some db =>
    obtain ⟨t1, h1, c1⟩ := placeBand_trace cfg (Report.updateDetailStats cfg st row)
      db row false 0 row (.detailE row)
    obtain ⟨t2, h2, c2⟩ := placeAdditionals_trace cfg db.additionalbands row
      (Report.placeBand cfg (Report.updateDetailStats cfg st row) db row false 0 row
        (.detailE row))
    refine ⟨[REvent.detailE row] ++ t1 ++ t2, ?_, ?_⟩
    · rw [h2, h1, updateDetailStats_trace]
      simp [List.append_assoc]
    · intro e he
      simp only [List.mem_append, List.mem_singleton] at he
      rcases he with (he | he) | he
      · exact Or.inl he
      · exact Or.inr (Or.inr (c1 e he))
      · rcases c2 e he with h | h
        · exact Or.inr (Or.inl h)
        · exact Or.inr (Or.inr h)


theorem setGfPrev_trace (st : RState) (g : List PyVal) :
    (RState.setGfPrev st g).trace = st.trace := rfl

theorem setGhPrev_trace (st : RState) (g : List PyVal) :
    (RState.setGhPrev st g).trace = st.trace := rfl

theorem bumpRow_trace (st : RState) :
    st.bumpRow.trace = st.trace := rfl

theorem rowStepProcessed_eq (cfg : RCfg) (st : RState) (prevrow : Option Row)
    (row : Row) (gfp : List PyVal) (gfc : List Bool) (ghp : List PyVal)
    (ghc : List Bool)
    (hgf : Report.scanBands cfg.groupfooters st.gfPrev row = Except.ok (gfp, gfc))
    (hgh : Report.scanBands cfg.groupheaders st.ghPrev row = Except.ok (ghp, ghc)) :
    Report.rowStepProcessed cfg st prevrow row =
      Except.ok (Report.placeDetail cfg
          (Report.emitHeaders cfg
            (RState.setGhPrev
              (Report.flushFooters cfg (RState.setGfPrev st gfp)
                (lastChangedIdx gfc) (prevrow.getD []) row)
              ghp)
            (firstChangedIdx ghc) row)
          row,
        some row, false) := by
  unfold Report.rowStepProcessed
  rw [hgf, hgh]
  rfl

theorem rowStep_notfirst (cfg : RCfg) (st : RState) (pr row : Row)
    (hrf : cfg.rowfunc = Option.none) :
    Report.rowStep cfg (st, some pr, false) row =
      Report.rowStepProcessed cfg st.bumpRow (some pr) row := by
  unfold Report.rowStep
  rw [hrf]
  rfl

/-- C7: at a group boundary during the pagination loop, every
group-footer band generation uses the **previous** row (the row leaving
the group) while every group-header band generation uses the **current**
row (the row entering the group): (1) across a whole non-first row step,
any newly recorded `gfooter` event carries the previous row and any
newly recorded `gheader` event carries the current row; (2) when the
footer scan reports an innermost changed level `L`, the flush generates
the footer of every level `0 .. L` (ascending, outer to inner) from the
previous row; (3) when the header scan reports an outermost changed
level `F`, the emission generates the header of every level from `F`
through the innermost from the current row. -/
theorem group_footer_header_row_asymmetry :
    (∀ (cfg : RCfg) (st : RState) (prevrow row : Row)
        (gfp : List PyVal) (gfc : List Bool) (ghp : List PyVal) (ghc : List Bool)
        (out : RState × Option Row × Bool),
      cfg.rowfunc = Option.none →
      Report.scanBands cfg.groupfooters st.gfPrev row = Except.ok (gfp, gfc) →
      Report.scanBands cfg.groupheaders st.ghPrev row = Except.ok (ghp, ghc) →
      Report.rowStep cfg (st, some prevrow, false) row = Except.ok out →
      (∀ i r, REvent.gfooter i r ∈ out.1.trace →
        REvent.gfooter i r ∈ st.trace ∨ r = prevrow)
      ∧ (∀ i r, REvent.gheader i r ∈ out.1.trace →
          REvent.gheader i r ∈ st.trace ∨ r = row))
    ∧ (∀ (cfg : RCfg) (st : RState) (L : Nat) (prevrow row : Row) (i : Nat),
        i ≤ L → i < cfg.groupfooters.length →
        REvent.gfooter i prevrow ∈
          (Report.flushFooters cfg st (some L) prevrow row).trace)
    ∧ (∀ (cfg : RCfg) (st : RState) (F : Nat) (row : Row) (i : Nat),
        F ≤ i → i < cfg.groupheaders.length →
        REvent.gheader i row ∈
          (Report.emitHeaders cfg st (some F) row).trace) := by
  refine ⟨?_, ?_, ?_⟩
  · intro cfg st prevrow row gfp gfc ghp ghc out hrf hgf hgh hstep
    rw [rowStep_notfirst cfg st prevrow row hrf,
      rowStepProcessed_eq cfg st.bumpRow (some prevrow) row gfp gfc ghp ghc
        hgf hgh] at hstep
    injection hstep with hstep
    subst hstep
    obtain ⟨t1, h1, c1⟩ := flushFooters_trace cfg
      (RState.setGfPrev st.bumpRow gfp) (lastChangedIdx gfc)
      ((some prevrow).getD []) row
    obtain ⟨t2, h2, c2⟩ := emitHeaders_trace cfg
      (RState.setGhPrev
        (Report.flushFooters cfg (RState.setGfPrev st.bumpRow gfp)
          (lastChangedIdx gfc) ((some prevrow).getD []) row)
        ghp)
      (firstChangedIdx ghc) row
    obtain ⟨t3, h3, c3⟩ := placeDetail_trace cfg
      (Report.emitHeaders cfg
        (RState.setGhPrev
          (Report.flushFooters cfg (RState.setGfPrev st.bumpRow gfp)
            (lastChangedIdx gfc) ((some prevrow).getD []) row)
          ghp)
        (firstChangedIdx ghc) row)
      row
    have hTr : (Report.placeDetail cfg
        (Report.emitHeaders cfg
          (RState.setGhPrev
            (Report.flushFooters cfg (RState.setGfPrev st.bumpRow gfp)
              (lastChangedIdx gfc) ((some prevrow).getD []) row)
            ghp)
          (firstChangedIdx ghc) row)
        row).trace = st.trace ++ (t1 ++ (t2 ++ t3)) := by
      rw [h3, h2, setGhPrev_trace, h1, setGfPrev_trace, bumpRow_trace]
      simp [List.append_assoc]
    constructor
    · intro i r hmem
      rw [show ((Report.placeDetail cfg
          (Report.emitHeaders cfg
            (RState.setGhPrev
              (Report.flushFooters cfg (RState.setGfPrev st.bumpRow gfp)
                (lastChangedIdx gfc) ((some prevrow).getD []) row)
              ghp)
            (firstChangedIdx ghc) row)
          row, some row, false) : RState × Option Row × Bool).1 =
        Report.placeDetail cfg
          (Report.emitHeaders cfg
            (RState.setGhPrev
              (Report.flushFooters cfg (RState.setGfPrev st.bumpRow gfp)
                (lastChangedIdx gfc) ((some prevrow).getD []) row)
              ghp)
            (firstChangedIdx ghc) row)
          row from rfl, hTr] at hmem
      simp only [List.mem_append] at hmem
      rcases hmem with hmem | hmem | hmem | hmem
      · exact Or.inl hmem
      · rcases c1 _ hmem with ⟨j, hj⟩ | hj | hj
        · rw [REvent.gfooter.injEq] at hj
          exact Or.inr hj.2
        · simp at hj
        · rcases hj with h | h | h | h <;> simp at h
      · rcases c2 _ hmem with ⟨j, hj⟩ | hj | hj
        · simp at hj
        · simp at hj
        · rcases hj with h | h | h | h <;> simp at h
      · rcases c3 _ hmem with hj | hj | hj
        · simp at hj
        · simp at hj
        · rcases hj with h | h | h | h <;> simp at h
    · intro i r hmem
      rw [show ((Report.placeDetail cfg
          (Report.emitHeaders cfg
            (RState.setGhPrev
              (Report.flushFooters cfg (RState.setGfPrev st.bumpRow gfp)
                (lastChangedIdx gfc) ((some prevrow).getD []) row)
              ghp)
            (firstChangedIdx ghc) row)
          row, some row, false) : RState × Option Row × Bool).1 =
        Report.placeDetail cfg
          (Report.emitHeaders cfg
            (RState.setGhPrev
              (Report.flushFooters cfg (RState.setGfPrev st.bumpRow gfp)
                (lastChangedIdx gfc) ((some prevrow).getD []) row)
              ghp)
            (firstChangedIdx ghc) row)
          row from rfl, hTr] at hmem
      simp only [List.mem_append] at hmem
      rcases hmem with hmem | hmem | hmem | hmem
      · exact Or.inl hmem
      · rcases c1 _ hmem with ⟨j, hj⟩ | hj | hj
        · simp at hj
        · simp at hj
        · rcases hj with h | h | h | h <;> simp at h
      · rcases c2 _ hmem with ⟨j, hj⟩ | hj | hj
        · rw [REvent.gheader.injEq] at hj
          exact Or.inr hj.2
        · simp at hj
        · rcases hj with h | h | h | h <;> simp at h
      · rcases c3 _ hmem with hj | hj | hj
        · simp at hj
        · simp at hj
        · rcases hj with h | h | h | h <;> simp at h
  · intro cfg st L prevrow row i hiL hlen
    unfold Report.flushFooters
    obtain ⟨t, ht, _, hk⟩ := footerFoldl_trace cfg prevrow row (List.range (L + 1)) st
    rw [ht]
    refine List.mem_append.mpr (Or.inr (hk i ?_ hlen))
    rw [List.mem_range]
    omega
  · intro cfg st F row i hFi hlen
    unfold Report.emitHeaders
    obtain ⟨t, ht, _, hk⟩ := headerFoldl_trace cfg row
      (List.range' F (cfg.groupheaders.length - F)) st
    rw [ht]
    refine List.mem_append.mpr (Or.inr (hk i ?_ hlen))
    rw [List.mem_range'_1]
    omega

/-- The two-level grouped report of the C7 witness: group footers and
headers keyed on `"a"` (outer) and `"b"` (inner). -/
def cfg7 : RCfg :=
  { detailband := some (bandC 20 "d"),
    groupfooters := [.mk [elG 5 "a"] [] [] (some "a") Option.none false false [],
                     .mk [elG 5 "b"] [] [] (some "b") Option.none false false []],
    groupheaders := [.mk [elG 7 "a"] [] [] (some "a") Option.none false false [],
                     .mk [elG 7 "b"] [] [] (some "b") Option.none false false []],
    pagesizeH := 1000 }

/-- The previous row of the C7 witness (group keys `x`/`1`). -/
def r71 : Row := [("a", .str "x"), ("b", .str "1")]

/-- The current row of the C7 witness: the inner group key changes
(`1` to `2`). -/
def r72 : Row := [("a", .str "x"), ("b", .str "2")]

/-- The C7 witness state after processing `r71`: the stored group keys
are those of `r71`. -/
def st7 : RState :=
  { canvas := { pages := [], current := [] }, pagenumber := 1, rownumber := 1,
    current_offset := 50, endofpage := 964,
    gfPrev := [PyVal.str "x", PyVal.str "1"], ghPrev := [PyVal.str "x", PyVal.str "1"],
    sumDetailHt := 20, avgDetailHt := 20, maxDetailHt := 20, trace := [] }

/-- The result of the C7 witness row step. -/
def out7 : RState × Option Row × Bool :=
  (Report.rowStep cfg7 (st7, some r71, false) r72).toOption.getD
    (st7, Option.none, false)

/-- C7 witness: on the concrete two-level scenario, the row step from
`r71` to `r72` succeeds, its newly recorded footer generations carry
the previous row `r71`, and the flush/emission cover levels `0..1` with
the previous and current rows respectively. -/
theorem group_footer_header_row_asymmetry_witness :
    Report.rowStep cfg7 (st7, some r71, false) r72 = Except.ok out7
      ∧ (REvent.gfooter 1 r71 ∈ st7.trace ∨ r71 = r71)
      ∧ REvent.gfooter 0 r71 ∈ (Report.flushFooters cfg7 st7 (some 1) r71 r72).trace
      ∧ REvent.gheader 1 r72 ∈ (Report.emitHeaders cfg7 st7 (some 1) r72).trace := by
  refine ⟨rfl, ?_, ?_, ?_⟩
  · exact (group_footer_header_row_asymmetry.1 cfg7 st7 r71 r72
      [PyVal.str "x", PyVal.str "2"] [false, true]
      [PyVal.str "x", PyVal.str "2"] [false, true]
      out7 rfl rfl rfl rfl).1 1 r71 (by decide)
  · exact group_footer_header_row_asymmetry.2.1 cfg7 st7 1 r71 r72 0
      (by decide) (by decide)
  · exact group_footer_header_row_asymmetry.2.2 cfg7 st7 1 r72 1
      (by decide) (by decide)

end PollyReports
